import Mathlib

/-!
Verification of the imx-misc-tools OTP fuse library (src/otp) against its
natural-language specification.

The C code is shallowly embedded: 32-bit words are `Nat` reduced mod 2^32
where the C types force it, the nvmem device is a map from fuse-word ids to
word values together with a log of the writes performed to it, and C
functions returning `int`/errno become functions into `Except Cerr _`.
Out-of-bounds C array reads (undefined behavior) are modelled as `none` /
a distinguished result, never as a defined value.
-/

/-- errno values the library sets. -/
inductive Cerr where
  | EINVAL
  | EALREADY
deriving DecidableEq, Repr

deriving instance DecidableEq for Except

/-- The nvmem fuse device: current word values plus a log of all word
writes performed, in order (fuse id, value written). -/
structure Device where
  mem : Nat → Nat
  log : List (Nat × Nat)

/-- uint32 truncation. -/
def u32 (n : Nat) : Nat := n % 4294967296

-- otp.h: the otp_fuseword_id_t enumeration, in declaration order.
def OCOTP_LOCK : Nat := 0
def OCOTP_TESTER0 : Nat := 1
def OCOTP_TESTER1 : Nat := 2
def OCOTP_TESTER3 : Nat := 3
def OCOTP_TESTER4 : Nat := 4
def OCOTP_TESTER5 : Nat := 5
def OCOTP_BOOT_CFG0 : Nat := 6
def OCOTP_BOOT_CFG1 : Nat := 7
def OCOTP_BOOT_CFG2 : Nat := 8
def OCOTP_BOOT_CFG3 : Nat := 9
def OCOTP_BOOT_CFG4 : Nat := 10
def OCOTP_SRK0 : Nat := 11
def OCOTP_SRK1 : Nat := 12
def OCOTP_SRK2 : Nat := 13
def OCOTP_SRK3 : Nat := 14
def OCOTP_SRK4 : Nat := 15
def OCOTP_SRK5 : Nat := 16
def OCOTP_SRK6 : Nat := 17
def OCOTP_SRK7 : Nat := 18
def OCOTP_SJC_RESP0 : Nat := 19
def OCOTP_SJC_RESP1 : Nat := 20
def OCOTP_USB_ID : Nat := 21
def OCOTP_FIELD_RETURN : Nat := 22
def OCOTP_MAC_ADDR0 : Nat := 23
def OCOTP_MAC_ADDR1 : Nat := 24
def OCOTP_MAC_ADDR2 : Nat := 25
def OCOTP_SRK_REVOKE : Nat := 26
def OCOTP_GP10 : Nat := 27
def OCOTP_GP11 : Nat := 28
def OCOTP_GP20 : Nat := 29
def OCOTP_GP21 : Nat := 30
def OTP_FUSEWORD_COUNT : Nat := 31

/-- The raw device write performed by both `otp___fuseword_write` and the
write tail of `otp___fuseword_update` (lseek + 4-byte write): stores the
uint32 value and appends it to the write log. -/
def devWrite (dev : Device) (id v : Nat) : Device :=
  { mem := fun j => if j = id then u32 v else dev.mem j
    log := dev.log ++ [(id, u32 v)] }

/-- otp_core.c `otp___fuseword_read`: validates the id and returns the
device's current uint32 word.  (The NULL-pointer checks of the C code have
no counterpart here; device I/O itself is modelled as always succeeding.) -/
def otp___fuseword_read (dev : Device) (id : Nat) : Except Cerr Nat :=
  if OTP_FUSEWORD_COUNT ≤ id then .error .EINVAL
  else .ok (u32 (dev.mem id))

/-- otp_core.c `otp___fuseword_write`: validates the id and writes the word
unconditionally.  Returns the status together with the resulting device. -/
def otp___fuseword_write (dev : Device) (id newval : Nat) :
    Except Cerr Unit × Device :=
  if OTP_FUSEWORD_COUNT ≤ id then (.error .EINVAL, dev)
  else (.ok (), devWrite dev id newval)

/-- otp_core.c `otp___fuseword_update`: reads the current word; if it equals
the requested value, succeeds without writing, otherwise performs the
write. -/
def otp___fuseword_update (dev : Device) (id newval : Nat) :
    Except Cerr Unit × Device :=
  if OTP_FUSEWORD_COUNT ≤ id then (.error .EINVAL, dev)
  else if u32 (dev.mem id) = u32 newval then (.ok (), dev)
  else (.ok (), devWrite dev id newval)

/-- A read loop over a list of fuse-word ids, failing on the first failed
read (the shape of the loops in `otp_srk_read`, `otp_bootcfg_read` and
`otp_bootcfg_update`). -/
def readWords (dev : Device) : List Nat → Except Cerr (List Nat)
  | [] => .ok []
  | id :: rest =>
    match otp___fuseword_read dev id with
    | .error e => .error e
    | .ok v =>
      match readWords dev rest with
      | .error e => .error e
      | .ok vs => .ok (v :: vs)

/-- The shared shape of the write-back loops in `otp_srk_write` and
`otp_bootcfg_update`: for each index in the list, skip it when the current
value already equals the desired one, otherwise write the desired value to
the fuse word `f i`, stopping at the first write failure. -/
def write_skip_loop (f : Nat → Nat) (curvals newvals : List Nat) :
    Device → List Nat → Except Cerr Unit × Device
  | dev, [] => (.ok (), dev)
  | dev, i :: rest =>
    if curvals.getD i 0 = newvals.getD i 0 then
      write_skip_loop f curvals newvals dev rest
    else
      match otp___fuseword_write dev (f i) (newvals.getD i 0) with
      | (.ok _, d) => write_skip_loop f curvals newvals d rest
      | (.error e, d) => (.error e, d)

-- otp_srk.c

/-- otp_srk.c `srk_fuse`: index-to-fuse-word table for the 8 SRK words. -/
def srk_fuse : Nat → Nat
  | 0 => OCOTP_SRK0
  | 1 => OCOTP_SRK1
  | 2 => OCOTP_SRK2
  | 3 => OCOTP_SRK3
  | 4 => OCOTP_SRK4
  | 5 => OCOTP_SRK5
  | 6 => OCOTP_SRK6
  | 7 => OCOTP_SRK7
  | _ => 0

def SRK_FUSE_COUNT : Nat := 8

/-- otp_srk.c `otp_srk_read`: reads min(sizeinwords, 8) SRK words in index
order. -/
def otp_srk_read (dev : Device) (sizeinwords : Nat) : Except Cerr (List Nat) :=
  readWords dev ((List.range (min sizeinwords SRK_FUSE_COUNT)).map srk_fuse)

/-- otp_srk.c `otp_srk_write`: requires exactly 8 words, reads the current
8 words, fails with EINVAL if any current word is non-zero and differs from
the desired word, otherwise writes exactly the differing words. -/
def otp_srk_write (dev : Device) (newvals : List Nat) :
    Except Cerr Unit × Device :=
  if newvals.length ≠ SRK_FUSE_COUNT then (.error .EINVAL, dev)
  else
    match otp_srk_read dev SRK_FUSE_COUNT with
    | .error e => (.error e, dev)
    | .ok curvals =>
      if (List.range SRK_FUSE_COUNT).any (fun i =>
          decide (curvals.getD i 0 ≠ 0) &&
          decide (curvals.getD i 0 ≠ newvals.getD i 0)) then
        (.error .EINVAL, dev)
      else
        write_skip_loop srk_fuse curvals newvals dev
          (List.range SRK_FUSE_COUNT)

-- otp_macaddr.c

/-- otp_macaddr.c `otp_macaddr_read`: reads MAC_ADDR0/1 and unpacks the 6
bytes (bytes 0-1 from MAC_ADDR1, bytes 2-5 from MAC_ADDR0). -/
def otp_macaddr_read (dev : Device) : Except Cerr (List Nat) :=
  match otp___fuseword_read dev OCOTP_MAC_ADDR0 with
  | .error e => .error e
  | .ok mac0 =>
    match otp___fuseword_read dev OCOTP_MAC_ADDR1 with
    | .error e => .error e
    | .ok mac1 =>
      .ok [(mac1 >>> 8) &&& 255, mac1 &&& 255,
           (mac0 >>> 24) &&& 255, (mac0 >>> 16) &&& 255,
           (mac0 >>> 8) &&& 255, mac0 &&& 255]

/-- otp_macaddr.c `otp_macaddr_write`: reads the current address; fails with
EALREADY if it is not all-zero; returns success without writing if it equals
the desired address (only reachable when the desired address is all-zero);
otherwise packs the 6 bytes into 2 words and writes MAC_ADDR0 then
MAC_ADDR1. -/
def otp_macaddr_write (dev : Device) (newaddr : List Nat) :
    Except Cerr Unit × Device :=
  match otp_macaddr_read dev with
  | .error e => (.error e, dev)
  | .ok curaddr =>
    if curaddr ≠ [0, 0, 0, 0, 0, 0] then (.error .EALREADY, dev)
    else if curaddr = newaddr then (.ok (), dev)
    else
      let mac1 := (newaddr.getD 0 0 <<< 8) ||| newaddr.getD 1 0
      let mac0 := (newaddr.getD 2 0 <<< 24) ||| (newaddr.getD 3 0 <<< 16) |||
                  (newaddr.getD 4 0 <<< 8) ||| newaddr.getD 5 0
      match otp___fuseword_write dev OCOTP_MAC_ADDR0 mac0 with
      | (.error e, d) => (.error e, d)
      | (.ok _, d) => otp___fuseword_write d OCOTP_MAC_ADDR1 mac1

-- otp_bootcfg.c

/-- otp_bootcfg.c `bootcfg_fuses`: index-to-fuse-word table for the 5
BOOT_CFG words. -/
def bootcfg_fuses : Nat → Nat
  | 0 => OCOTP_BOOT_CFG0
  | 1 => OCOTP_BOOT_CFG1
  | 2 => OCOTP_BOOT_CFG2
  | 3 => OCOTP_BOOT_CFG3
  | 4 => OCOTP_BOOT_CFG4
  | _ => 0

def OTP_BOOTCFG_WORD_COUNT : Nat := 5

-- otp_bootcfg.h: the otp_boot_cfg_id_t enumeration, in declaration order
-- (BOOT_CFG0 fields first, then BOOT_CFG1 fields).
def OTP_BOOT_CFG_DIR_BT_DIS : Nat := 0
def OTP_BOOT_CFG_BT_FUSE_SEL : Nat := 1
def OTP_BOOT_CFG_SJC_DISABLE : Nat := 2
def OTP_BOOT_CFG_SEC_CONFIG : Nat := 3
def OTP_BOOT_CFG_WDOG_ENABLE : Nat := 4
def OTP_BOOT_CFG_TZASC_ENABLE : Nat := 5
def OTP_BOOT_CFG_WDOG_TIMEOUT : Nat := 6
def OTP_BOOT_CFG_COUNT : Nat := 7

/-- otp_bootcfg.c `bootcfg_fuseword_index`: which window word holds each
field (ids 0-3 live in BOOT_CFG0, ids 4-6 in BOOT_CFG1). -/
def bootcfg_fuseword_index : Nat → Nat
  | 0 => 0
  | 1 => 0
  | 2 => 0
  | 3 => 0
  | 4 => 1
  | 5 => 1
  | 6 => 1
  | _ => 0

/-- otp_bootcfg.c `bootcfg_offset`: bit offset of each field within its
word. -/
def bootcfg_offset : Nat → Nat
  | 0 => 27
  | 1 => 28
  | 2 => 21
  | 3 => 25
  | 4 => 10
  | 5 => 11
  | 6 => 16
  | _ => 0

/-- otp_bootcfg.c `timeouts`: watchdog timeout table, indexed by the 2-bit
code.  The C array has 5 entries of `unsigned int`. -/
def timeouts : Nat → Nat
  | 0 => 64
  | 1 => 32
  | 2 => 16
  | 3 => 8
  | 4 => 4
  | _ => 0

def timeouts_entry_count : Nat := 5

/-- `sizeof(timeouts)` in the C code: 5 entries x 4 bytes.  The code uses
this byte count where the entry count was meant. -/
def sizeof_timeouts : Nat := 5 * 4

/-- otp_bootcfg.c `otp_bootcfg_bool_get`: extracts the 1-bit field of `id`
from the window.  Rejects only `sizeinwords < 2` and `id` beyond the
enumeration; the 2-bit WDOG_TIMEOUT id (6) is accepted like any other. -/
def otp_bootcfg_bool_get (fusewords : List Nat) (sizeinwords id : Nat) :
    Except Cerr Bool :=
  if sizeinwords < 2 ∨ OTP_BOOT_CFG_COUNT ≤ id then .error .EINVAL
  else
    .ok (decide (fusewords.getD (bootcfg_fuseword_index id) 0 &&&
                   (1 <<< bootcfg_offset id) ≠ 0))

/-- otp_bootcfg.c `otp_bootcfg_wdog_get`: `enabled` comes from the
WDOG_ENABLE bit; the timeout is computed as
`fusewords[index[WDOG_ENABLE]] & (3 << offset[WDOG_ENABLE])` (note: the
WDOG_ENABLE offset 10, not the WDOG_TIMEOUT offset 16, and the masked value
is not shifted down).  The `tmo >= sizeof(timeouts)` guard's assignment of 0
is dead: the next line unconditionally indexes `timeouts[tmo]`, an
out-of-bounds read whenever `tmo ≥ 5`, modelled here as `none`. -/
def otp_bootcfg_wdog_get (fusewords : List Nat) (sizeinwords : Nat) :
    Except Cerr (Bool × Option Nat) :=
  match otp_bootcfg_bool_get fusewords sizeinwords OTP_BOOT_CFG_WDOG_ENABLE with
  | .error e => .error e
  | .ok enabled =>
    let tmo := fusewords.getD (bootcfg_fuseword_index OTP_BOOT_CFG_WDOG_ENABLE) 0 &&&
               (3 <<< bootcfg_offset OTP_BOOT_CFG_WDOG_ENABLE)
    .ok (enabled, if tmo < timeouts_entry_count then some (timeouts tmo) else none)

/-- otp_bootcfg.c `otp_bootcfg_bool_set`: sets or clears the field's bit in
the in-memory window (uint32 complement written as xor with 0xFFFFFFFF). -/
def otp_bootcfg_bool_set (fusewords : List Nat) (sizeinwords id : Nat)
    (value : Bool) : Except Cerr (List Nat) :=
  if sizeinwords < 2 ∨ OTP_BOOT_CFG_COUNT ≤ id then .error .EINVAL
  else
    let idx := bootcfg_fuseword_index id
    let w := fusewords.getD idx 0
    .ok (fusewords.set idx
      (if value then w ||| (1 <<< bootcfg_offset id)
       else w &&& (4294967295 ^^^ (1 <<< bootcfg_offset id))))

/-- The scan loop at the top of otp_bootcfg.c `otp_bootcfg_wdog_set`:
`for (tmo = 0; tmo < sizeof(timeouts) && timeouts[tmo] != t; tmo++)`.
If the value is not among the 5 table entries the loop reads `timeouts[5]`,
out of bounds; modelled as `none`. -/
def timeouts_scan (t : Nat) : Option Nat :=
  (List.range timeouts_entry_count).find? (fun i => timeouts i == t)

/-- otp_bootcfg.c `otp_bootcfg_wdog_set`.  A nonzero timeout is looked up in
the table; the enable flag is set via `otp_bootcfg_bool_set`; then, for a
nonzero timeout, the 2-bit code is stored at the WDOG_ENABLE offset
(bit 10, clobbering the enable flag just written) rather than the
WDOG_TIMEOUT offset.  The outer `Option` is `none` when the table scan
performs its out-of-bounds read (undefined behavior). -/
def otp_bootcfg_wdog_set (fusewords : List Nat) (sizeinwords : Nat)
    (enabled : Bool) (timeout_in_seconds : Nat) :
    Option (Except Cerr (List Nat)) :=
  if timeout_in_seconds ≠ 0 then
    match timeouts_scan timeout_in_seconds with
    | none => none
    | some tmo =>
      match otp_bootcfg_bool_set fusewords sizeinwords
              OTP_BOOT_CFG_WDOG_ENABLE enabled with
      | .error e => some (.error e)
      | .ok fw1 =>
        let idx := bootcfg_fuseword_index OTP_BOOT_CFG_WDOG_ENABLE
        let off := bootcfg_offset OTP_BOOT_CFG_WDOG_ENABLE
        let w := fw1.getD idx 0
        some (.ok (fw1.set idx
          ((w &&& (4294967295 ^^^ (3 <<< off))) ||| (tmo <<< off))))
  else
    match otp_bootcfg_bool_set fusewords sizeinwords
            OTP_BOOT_CFG_WDOG_ENABLE enabled with
    | .error e => some (.error e)
    | .ok fw1 => some (.ok fw1)

/-- otp_bootcfg.c `otp_bootcfg_update`: requires exactly 5 words, reads the
current on-device window, then writes back only the differing words in
index order. -/
def otp_bootcfg_update (dev : Device) (newvals : List Nat) :
    Except Cerr Unit × Device :=
  if newvals.length ≠ OTP_BOOTCFG_WORD_COUNT then (.error .EINVAL, dev)
  else
    match readWords dev ((List.range OTP_BOOTCFG_WORD_COUNT).map bootcfg_fuses) with
    | .error e => (.error e, dev)
    | .ok curvals =>
      write_skip_loop bootcfg_fuses curvals newvals dev
        (List.range OTP_BOOTCFG_WORD_COUNT)

-- otp_lock.c

-- otp_lock.h: otp_lock_id_t, in declaration order (2-bit locks first).
def OTP_LOCK_TESTER : Nat := 0
def OTP_LOCK_BOOT_CFG : Nat := 1
def OTP_LOCK_USB_ID : Nat := 2
def OTP_LOCK_MAC_ADDR : Nat := 3
def OTP_LOCK_GP1 : Nat := 4
def OTP_LOCK_GP2 : Nat := 5
def OTP_LOCK_GP5 : Nat := 6
def OTP_LOCK_SRK : Nat := 7
def OTP_LOCK_SJC_RESP : Nat := 8
def OTP_LOCK_MANUFACTURE_KEY : Nat := 9
def OTP_LOCK_COUNT : Nat := 10

-- otp_lock.h: otp_lockstate_t values.
def OTP_LOCKSTATE_UNLOCKED : Nat := 0
def OTP_LOCKSTATE_LOCKED : Nat := 1
def OTP_LOCKSTATE_O_PROTECT : Nat := 2
def OTP_LOCKSTATE_W_PROTECT : Nat := 3
def OTP_LOCKSTATE_OW_PROTECT : Nat := 4
def OTP_LOCKSTATE_COUNT : Nat := 5

/-- otp_lock.c `lock_offsets`: bit offset of each lock in the lock word. -/
def lock_offsets : Nat → Nat
  | 0 => 0
  | 1 => 2
  | 2 => 12
  | 3 => 14
  | 4 => 20
  | 5 => 22
  | 6 => 24
  | 7 => 9
  | 8 => 10
  | 9 => 16
  | _ => 0

/-- otp_lock.c `lock_is_1bit`: width class of each lock (ids 0-6 are the
2-bit locks, ids 7-9 the 1-bit locks). -/
def lock_is_1bit : Nat → Bool
  | 0 => false
  | 1 => false
  | 2 => false
  | 3 => false
  | 4 => false
  | 5 => false
  | 6 => false
  | 7 => true
  | 8 => true
  | 9 => true
  | _ => false

/-- otp_lock.c `locknames`: the 10 lock labels, co-indexed with the lock
ids. -/
def locknames : List String :=
  ["TESTER", "BOOT_CFG", "USB_ID", "MAC_ADDR", "GP1", "GP2", "GP5",
   "SRK", "SJC_RESP", "MANUFACTURE_KEY"]

/-- `sizeof(locknames)` in the C code: 10 pointers x 8 bytes on the 64-bit
target.  The code compares the lock id against this byte count where the
entry count was meant. -/
def sizeof_locknames : Nat := 10 * 8

/-- otp_lock.c `otp_lock_name`: rejects ids `≥ sizeof(locknames)` (the byte
size, 80, not the entry count, 10) and otherwise indexes the name table.
An index past the 10 entries is an out-of-bounds read, modelled as
`.ok none`. -/
def otp_lock_name (id : Nat) : Except Cerr (Option String) :=
  if sizeof_locknames ≤ id then .error .EINVAL
  else .ok locknames[id]?

/-- otp_lock.c `otp_lockstate_get` `twobit_states`: maps the 2-bit field
value to a lock state. -/
def twobit_states : Nat → Nat
  | 0 => OTP_LOCKSTATE_UNLOCKED
  | 1 => OTP_LOCKSTATE_W_PROTECT
  | 2 => OTP_LOCKSTATE_O_PROTECT
  | 3 => OTP_LOCKSTATE_OW_PROTECT
  | _ => 0

/-- otp_lock.c `otp_lockstate_get`. -/
def otp_lockstate_get (lockword id : Nat) : Except Cerr Nat :=
  if OTP_LOCK_COUNT ≤ id then .error .EINVAL
  else if lock_is_1bit id then
    .ok (if (lockword >>> lock_offsets id) &&& 1 ≠ 0 then
           OTP_LOCKSTATE_LOCKED
         else OTP_LOCKSTATE_UNLOCKED)
  else
    .ok (twobit_states ((lockword >>> lock_offsets id) &&& 3))

/-- otp_lock.c `otp_lockstate_set`: returns the updated lock word.  For a
2-bit lock the new state's bit pattern is applied by clearing `off_mask`
and setting `on_mask` (uint32 complement written as xor with
0xFFFFFFFF). -/
def otp_lockstate_set (id newstate lockword : Nat) : Except Cerr Nat :=
  if OTP_LOCK_COUNT ≤ id ∨ OTP_LOCKSTATE_COUNT ≤ newstate then .error .EINVAL
  else if lock_is_1bit id then
    if newstate = OTP_LOCKSTATE_UNLOCKED then
      .ok (lockword &&& (4294967295 ^^^ (1 <<< lock_offsets id)))
    else if newstate = OTP_LOCKSTATE_LOCKED then
      .ok (lockword ||| (1 <<< lock_offsets id))
    else .error .EINVAL
  else
    let off := lock_offsets id
    if newstate = OTP_LOCKSTATE_UNLOCKED then
      .ok ((lockword &&& (4294967295 ^^^ (3 <<< off))) ||| 0)
    else if newstate = OTP_LOCKSTATE_O_PROTECT then
      .ok ((lockword &&& (4294967295 ^^^ (1 <<< off))) ||| (2 <<< off))
    else if newstate = OTP_LOCKSTATE_W_PROTECT then
      .ok ((lockword &&& (4294967295 ^^^ (2 <<< off))) ||| (1 <<< off))
    else if newstate = OTP_LOCKSTATE_OW_PROTECT then
      .ok ((lockword &&& (4294967295 ^^^ 0)) ||| (3 <<< off))
    else .error .EINVAL

/-- The 2-bit patterns named by the specification for the four 2-bit lock
states: Unlocked=00, WriteProtect=01, OverrideProtect=10,
OverrideWriteProtect=11. -/
def lock_pattern : Nat → Nat
  | 0 => 0
  | 3 => 1
  | 2 => 2
  | 4 => 3
  | _ => 0

-- Helper lemmas

/-- A read loop over valid fuse-word ids always succeeds and returns the
current uint32 word values. -/
theorem readWords_ok (dev : Device) (ids : List Nat)
    (h : ∀ id ∈ ids, id < OTP_FUSEWORD_COUNT) :
    readWords dev ids = .ok (ids.map fun id => u32 (dev.mem id)) := by
  induction ids with
  | nil => rfl
  | cons id rest ih =>
    have hid : id < OTP_FUSEWORD_COUNT := h id (List.mem_cons_self ..)
    have hrest := ih (fun i hi => h i (List.mem_cons_of_mem _ hi))
    simp only [readWords, otp___fuseword_read, List.map_cons]
    rw [if_neg (by omega), hrest]

theorem getD_range_map {α : Type} (f : Nat → α) (n i : Nat) (d : α)
    (h : i < n) : ((List.range n).map f).getD i d = f i := by
  simp [List.getD_eq_getElem?_getD, List.getElem?_range h]

/-- The differing-word write-back loop: it succeeds when all fuse ids are
valid, appends to the log exactly one write per differing index, in list
order, and leaves every fuse word it does not write untouched. -/
theorem write_skip_loop_spec (f : Nat → Nat) (cur new : List Nat)
    (l : List Nat) (dev : Device)
    (h : ∀ i ∈ l, f i < OTP_FUSEWORD_COUNT) :
    (write_skip_loop f cur new dev l).1 = .ok () ∧
    (write_skip_loop f cur new dev l).2.log = dev.log ++
      l.filterMap (fun i => if cur.getD i 0 = new.getD i 0 then none
                            else some (f i, u32 (new.getD i 0))) ∧
    ∀ j, (∀ i ∈ l, cur.getD i 0 ≠ new.getD i 0 → f i ≠ j) →
      (write_skip_loop f cur new dev l).2.mem j = dev.mem j := by
  induction l generalizing dev with
  | nil => exact ⟨rfl, by simp [write_skip_loop], fun j hj => rfl⟩
  | cons i rest ih =>
    have hfi : f i < OTP_FUSEWORD_COUNT := h i (List.mem_cons_self ..)
    have hrest : ∀ x ∈ rest, f x < OTP_FUSEWORD_COUNT :=
      fun x hx => h x (List.mem_cons_of_mem _ hx)
    by_cases hc : cur.getD i 0 = new.getD i 0
    · have hih := ih dev hrest
      simp only [write_skip_loop, if_pos hc]
      refine ⟨hih.1, ?_, ?_⟩
      · rw [hih.2.1, List.filterMap_cons, if_pos hc]
      · intro j hj
        exact hih.2.2 j (fun x hx => hj x (List.mem_cons_of_mem _ hx))
    · have hw : otp___fuseword_write dev (f i) (new.getD i 0) =
          (.ok (), devWrite dev (f i) (new.getD i 0)) := by
        unfold otp___fuseword_write
        rw [if_neg (by omega)]
      have hih := ih (devWrite dev (f i) (new.getD i 0)) hrest
      simp only [write_skip_loop, if_neg hc, hw]
      refine ⟨hih.1, ?_, ?_⟩
      · rw [hih.2.1, List.filterMap_cons, if_neg hc]
        simp [devWrite]
      · intro j hj
        rw [hih.2.2 j (fun x hx => hj x (List.mem_cons_of_mem _ hx))]
        have hji : f i ≠ j := hj i (List.mem_cons_self ..) hc
        simp only [devWrite]
        rw [if_neg (show ¬ (j = f i) by omega)]

/-- Values taken from a list of uint32 values are unchanged by `u32`. -/
theorem u32_getD_eq (vals : List Nat) (hv : ∀ v ∈ vals, v < 4294967296)
    (i : Nat) (hi : i < vals.length) : u32 (vals.getD i 0) = vals.getD i 0 := by
  have hmem : vals.getD i 0 ∈ vals := by
    rw [List.getD_eq_getElem?_getD, List.getElem?_eq_getElem hi]
    exact List.getElem_mem hi
  exact Nat.mod_eq_of_lt (hv _ hmem)

-- Claim theorems

/-- C1: `otp_srk_write` on an 8-word desired hash reads the current 8 SRK
words; if any current word is non-zero and differs from the desired word it
fails with EINVAL and performs no device writes at all; otherwise it
succeeds, writing exactly the indices where current differs from desired,
in index order, and each such index necessarily holds zero. -/
theorem otp_srk_write_spec (dev : Device) (newvals : List Nat)
    (hlen : newvals.length = 8) (hv : ∀ v ∈ newvals, v < 4294967296) :
    ((∃ i < 8, u32 (dev.mem (srk_fuse i)) ≠ 0 ∧
        u32 (dev.mem (srk_fuse i)) ≠ newvals.getD i 0) →
      otp_srk_write dev newvals = (.error .EINVAL, dev)) ∧
    ((∀ i < 8, u32 (dev.mem (srk_fuse i)) = 0 ∨
        u32 (dev.mem (srk_fuse i)) = newvals.getD i 0) →
      (otp_srk_write dev newvals).1 = .ok () ∧
      (otp_srk_write dev newvals).2.log = dev.log ++
        (List.range 8).filterMap (fun i =>
          if u32 (dev.mem (srk_fuse i)) = newvals.getD i 0 then none
          else some (srk_fuse i, newvals.getD i 0)) ∧
      (∀ i < 8, u32 (dev.mem (srk_fuse i)) ≠ newvals.getD i 0 →
        u32 (dev.mem (srk_fuse i)) = 0)) := by
  have hread : otp_srk_read dev 8 =
      .ok ((List.range 8).map fun i => u32 (dev.mem (srk_fuse i))) := by
    unfold otp_srk_read SRK_FUSE_COUNT
    rw [Nat.min_self, readWords_ok dev _ (by decide)]
    simp [List.map_map, Function.comp]
  have hcur : ∀ i, i < 8 →
      (((List.range 8).map fun i => u32 (dev.mem (srk_fuse i))).getD i 0) =
        u32 (dev.mem (srk_fuse i)) :=
    fun i hi => getD_range_map _ 8 i 0 hi
  have h8 : ¬ (newvals.length ≠ 8) := by omega
  have hany : (((List.range 8).any fun i =>
      decide ((((List.range 8).map fun i => u32 (dev.mem (srk_fuse i))).getD i 0) ≠ 0) &&
      decide ((((List.range 8).map fun i => u32 (dev.mem (srk_fuse i))).getD i 0) ≠
        newvals.getD i 0)) = true) ↔
      (∃ i < 8, u32 (dev.mem (srk_fuse i)) ≠ 0 ∧
        u32 (dev.mem (srk_fuse i)) ≠ newvals.getD i 0) := by
    simp only [List.any_eq_true, List.mem_range, Bool.and_eq_true,
      decide_eq_true_eq]
    exact exists_congr fun i => and_congr_right fun hi => by rw [hcur i hi]
  constructor
  · intro hex
    simp only [otp_srk_write, SRK_FUSE_COUNT, hread]
    rw [if_neg h8, if_pos (hany.mpr hex)]
  · intro hall
    have hnoex : ¬ (∃ i < 8, u32 (dev.mem (srk_fuse i)) ≠ 0 ∧
        u32 (dev.mem (srk_fuse i)) ≠ newvals.getD i 0) := by
      rintro ⟨i, hi, h1, h2⟩
      rcases hall i hi with h0 | he
      · exact h1 h0
      · exact h2 he
    have hloop := write_skip_loop_spec srk_fuse
      ((List.range 8).map fun i => u32 (dev.mem (srk_fuse i))) newvals
      (List.range 8) dev (by decide)
    have hcond := (not_congr hany).mpr hnoex
    have heq : otp_srk_write dev newvals =
        write_skip_loop srk_fuse
          ((List.range 8).map fun i => u32 (dev.mem (srk_fuse i))) newvals
          dev (List.range 8) := by
      simp only [otp_srk_write, SRK_FUSE_COUNT, hread]
      rw [if_neg h8, if_neg hcond]
    refine ⟨by rw [heq]; exact hloop.1, ?_, ?_⟩
    · rw [heq, hloop.2.1]
      congr 1
      apply List.filterMap_congr
      intro i hi
      have hi8 : i < 8 := List.mem_range.mp hi
      rw [hcur i hi8, u32_getD_eq newvals hv i (by omega)]
    · intro i hi hne
      rcases hall i hi with h0 | he
      · exact h0
      · exact absurd he hne

/-- C1 witness: on an all-zero device, writing the hash [1..8] succeeds. -/
theorem otp_srk_write_spec_witness :
    ([1, 2, 3, 4, 5, 6, 7, 8] : List Nat).length = 8 ∧
    (∀ v ∈ ([1, 2, 3, 4, 5, 6, 7, 8] : List Nat), v < 4294967296) ∧
    (otp_srk_write ⟨fun _ => 0, []⟩ [1, 2, 3, 4, 5, 6, 7, 8]).1 = .ok () :=
  ⟨by decide, by decide,
    ((otp_srk_write_spec ⟨fun _ => 0, []⟩ [1, 2, 3, 4, 5, 6, 7, 8]
      (by decide) (by decide)).2 (by decide)).1⟩

/-- C6: `otp___fuseword_update` of a value equal to the word's current
device value succeeds with zero device writes; otherwise it performs the
write.  In particular, `read_word`, then `write_word` of the same value,
then `update_word` of that value performs zero device writes on the third
call. -/
theorem otp___fuseword_update_spec (dev : Device) (id v : Nat)
    (hid : id < 31) (hv : v < 4294967296) :
    (u32 (dev.mem id) = v → otp___fuseword_update dev id v = (.ok (), dev)) ∧
    (u32 (dev.mem id) ≠ v →
      otp___fuseword_update dev id v = (.ok (), devWrite dev id v)) ∧
    (∀ w, otp___fuseword_read dev id = .ok w →
      (otp___fuseword_write dev id w).1 = .ok () ∧
      otp___fuseword_update (otp___fuseword_write dev id w).2 id w =
        (.ok (), (otp___fuseword_write dev id w).2)) := by
  have hnle : ¬ (OTP_FUSEWORD_COUNT ≤ id) := by
    simp only [OTP_FUSEWORD_COUNT]; omega
  have hvv : u32 v = v := Nat.mod_eq_of_lt hv
  refine ⟨?_, ?_, ?_⟩
  · intro he
    unfold otp___fuseword_update
    rw [if_neg hnle, if_pos (by rw [he, hvv])]
  · intro hne
    unfold otp___fuseword_update
    rw [if_neg hnle, if_neg (by rw [hvv]; exact hne)]
  · intro w hw
    unfold otp___fuseword_read at hw
    rw [if_neg hnle] at hw
    have hwv : w = u32 (dev.mem id) := by
      cases hw; rfl
    have hwrite : otp___fuseword_write dev id w = (.ok (), devWrite dev id w) := by
      unfold otp___fuseword_write
      rw [if_neg hnle]
    refine ⟨by rw [hwrite], ?_⟩
    rw [hwrite]
    unfold otp___fuseword_update
    rw [if_neg hnle, if_pos]
    have hmem : (devWrite dev id w).mem id = u32 w := by
      simp [devWrite]
    rw [hmem]
    simp only [u32]
    omega

/-- C6 witness: updating word 3 with its current value 5 writes nothing. -/
theorem otp___fuseword_update_spec_witness :
    (3 : Nat) < 31 ∧ (5 : Nat) < 4294967296 ∧
    otp___fuseword_update ⟨fun _ => 5, []⟩ 3 5 = (.ok (), ⟨fun _ => 5, []⟩) :=
  ⟨by decide, by decide,
    (otp___fuseword_update_spec ⟨fun _ => 5, []⟩ 3 5 (by decide)
      (by decide)).1 (by decide)⟩

/-- C8: `otp_bootcfg_update` fails with EINVAL unless given exactly 5
words; otherwise it reads the current 5-word window and writes back, in
index order, exactly the words whose desired value differs from the current
one, leaving every other fuse word untouched. -/
theorem otp_bootcfg_update_spec (dev : Device) (newvals : List Nat)
    (hv : ∀ v ∈ newvals, v < 4294967296) :
    (newvals.length ≠ 5 →
      otp_bootcfg_update dev newvals = (.error .EINVAL, dev)) ∧
    (newvals.length = 5 →
      (otp_bootcfg_update dev newvals).1 = .ok () ∧
      (otp_bootcfg_update dev newvals).2.log = dev.log ++
        (List.range 5).filterMap (fun i =>
          if u32 (dev.mem (bootcfg_fuses i)) = newvals.getD i 0 then none
          else some (bootcfg_fuses i, newvals.getD i 0)) ∧
      ∀ j, (∀ i < 5, u32 (dev.mem (bootcfg_fuses i)) ≠ newvals.getD i 0 →
          bootcfg_fuses i ≠ j) →
        (otp_bootcfg_update dev newvals).2.mem j = dev.mem j) := by
  constructor
  · intro hne
    simp only [otp_bootcfg_update, OTP_BOOTCFG_WORD_COUNT]
    rw [if_pos hne]
  · intro hlen
    have hread : readWords dev ((List.range 5).map bootcfg_fuses) =
        .ok ((List.range 5).map fun i => u32 (dev.mem (bootcfg_fuses i))) := by
      rw [readWords_ok dev _ (by decide)]
      simp [List.map_map, Function.comp]
    have hcur : ∀ i, i < 5 →
        (((List.range 5).map fun i => u32 (dev.mem (bootcfg_fuses i))).getD i 0) =
          u32 (dev.mem (bootcfg_fuses i)) :=
      fun i hi => getD_range_map _ 5 i 0 hi
    have heq : otp_bootcfg_update dev newvals =
        write_skip_loop bootcfg_fuses
          ((List.range 5).map fun i => u32 (dev.mem (bootcfg_fuses i))) newvals
          dev (List.range 5) := by
      simp only [otp_bootcfg_update, OTP_BOOTCFG_WORD_COUNT, hread]
      rw [if_neg (by omega)]
    have hloop := write_skip_loop_spec bootcfg_fuses
      ((List.range 5).map fun i => u32 (dev.mem (bootcfg_fuses i))) newvals
      (List.range 5) dev (by decide)
    refine ⟨by rw [heq]; exact hloop.1, ?_, ?_⟩
    · rw [heq, hloop.2.1]
      congr 1
      apply List.filterMap_congr
      intro i hi
      have hi5 : i < 5 := List.mem_range.mp hi
      rw [hcur i hi5, u32_getD_eq newvals hv i (by omega)]
    · intro j hj
      rw [heq]
      apply hloop.2.2
      intro i hi hne
      have hi5 : i < 5 := List.mem_range.mp hi
      rw [hcur i hi5] at hne
      exact hj i hi5 hne

/-- C8 witness: updating an all-zero device with window [1,2,3,4,5]
succeeds. -/
theorem otp_bootcfg_update_spec_witness :
    (∀ v ∈ ([1, 2, 3, 4, 5] : List Nat), v < 4294967296) ∧
    ([1, 2, 3, 4, 5] : List Nat).length = 5 ∧
    (otp_bootcfg_update ⟨fun _ => 0, []⟩ [1, 2, 3, 4, 5]).1 = .ok () :=
  ⟨by decide, by decide,
    ((otp_bootcfg_update_spec ⟨fun _ => 0, []⟩ [1, 2, 3, 4, 5]
      (by decide)).2 (by decide)).1⟩

/-- C7: for every 2-bit lock and each of the four 2-bit lock states,
`otp_lockstate_set` starting from lock word 0 stores exactly the 2-bit
pattern Unlocked=00, WriteProtect=01, OverrideProtect=10,
OverrideWriteProtect=11 at the lock's offset, and `otp_lockstate_get`
recovers the state. -/
theorem otp_lockstate_roundtrip :
    ∀ id, id < 10 → lock_is_1bit id = false → ∀ s, s < 5 → s ≠ 1 →
      otp_lockstate_set id s 0 = .ok (lock_pattern s <<< lock_offsets id) ∧
      otp_lockstate_get (lock_pattern s <<< lock_offsets id) id = .ok s := by
  intro id hid h1bit s hs hns
  interval_cases id <;> interval_cases s <;> revert h1bit hns <;> decide

/-- C7 witness: the TESTER lock (id 0) set to OverrideProtect. -/
theorem otp_lockstate_roundtrip_witness :
    (0 : Nat) < 10 ∧ lock_is_1bit 0 = false ∧ (2 : Nat) < 5 ∧ (2 : Nat) ≠ 1 ∧
    otp_lockstate_set 0 2 0 = .ok (lock_pattern 2 <<< lock_offsets 0) ∧
    otp_lockstate_get (lock_pattern 2 <<< lock_offsets 0) 0 = .ok 2 :=
  ⟨by decide, by decide, by decide, by decide,
    (otp_lockstate_roundtrip 0 (by decide) (by decide) 2 (by decide)
      (by decide)).1,
    (otp_lockstate_roundtrip 0 (by decide) (by decide) 2 (by decide)
      (by decide)).2⟩

/-- C10: lock id 10 is invalid (there are only 10 lock names, ids 0-9),
yet `otp_lock_name` accepts it — its range check compares against
`sizeof(locknames)` = 80 bytes instead of the 10-entry count — and the
table lookup is out of bounds (modelled as `.ok none` rather than the
documented NULL-with-EINVAL rejection). -/
theorem otp_lock_name_bug :
    otp_lock_name 10 ≠ .error Cerr.EINVAL ∧
    locknames.length = 10 ∧
    otp_lock_name 10 = .ok none :=
  ⟨by decide, by decide, rfl⟩

/-- C2: on the window [0, 0x10000, 0, 0, 0], whose 2-bit watchdog-timeout
field (bits 16-17 of BOOT_CFG1) holds code 1 (= 32 seconds per the table),
`otp_bootcfg_wdog_get` returns timeout 64: it masks bits 10-11 (the
WDOG_ENABLE offset) without shifting, so the timeout field is never
consulted and code 0 is looked up instead. -/
theorem otp_bootcfg_wdog_get_bug :
    otp_bootcfg_wdog_get [0, 65536, 0, 0, 0] 5 = .ok (false, some 64) := rfl

/-- C3: on an all-zero window, `otp_bootcfg_wdog_set true 16` stores the
timeout code 2 at bit 10 — the WDOG_ENABLE offset — producing word 0x800:
the enable bit just set is clobbered and TZASC's bit 11 is set instead.
`otp_bootcfg_wdog_get` then reports enabled = false and performs an
out-of-bounds timeouts[] read (modelled as `none`), not (true, 16). -/
theorem otp_bootcfg_wdog_set_bug :
    otp_bootcfg_wdog_set [0, 0, 0, 0, 0] 5 true 16 =
      some (.ok [0, 2048, 0, 0, 0]) ∧
    otp_bootcfg_wdog_get [0, 2048, 0, 0, 0] 5 = .ok (false, none) :=
  ⟨rfl, rfl⟩

/-- C5 counterexample: the WDOG_TIMEOUT field id (6) is not rejected by
`otp_bootcfg_bool_get`; on [0, 0x10000, 0, 0, 0] it returns the low bit of
the 2-bit timeout field instead of InvalidArgument. -/
theorem otp_bootcfg_bool_get_cex :
    otp_bootcfg_bool_get [0, 65536, 0, 0, 0] 5 OTP_BOOT_CFG_WDOG_TIMEOUT =
      .ok true ∧
    otp_bootcfg_bool_get [0, 65536, 0, 0, 0] 5 OTP_BOOT_CFG_WDOG_TIMEOUT ≠
      .error Cerr.EINVAL :=
  ⟨rfl, by decide⟩

/-- Testing a single bit with a mask equals testing the shifted word's low
bit. -/
theorem and_one_shift_ne_zero_iff (w k : Nat) :
    w &&& (1 <<< k) ≠ 0 ↔ (w >>> k) % 2 = 1 := by
  have h1 : (1 : Nat) <<< k = 2 ^ k := by rw [Nat.shiftLeft_eq, one_mul]
  rw [h1, Nat.and_two_pow, Nat.shiftRight_eq_div_pow]
  cases hb : w.testBit k with
  | false =>
    rw [Nat.testBit_to_div_mod] at hb
    simp only [decide_eq_false_iff_not] at hb
    simp [hb]
  | true =>
    rw [Nat.testBit_to_div_mod] at hb
    simp only [decide_eq_true_eq] at hb
    simp [hb, Nat.pos_iff_ne_zero.mp (Nat.two_pow_pos k)]

/-- C5 (amended): `otp_bootcfg_bool_get` fails with EINVAL exactly when the
window has fewer than 2 usable words or the field id is beyond the
enumeration; every id below the count — including the 2-bit watchdog-timeout
field — is accepted, and the function returns the 1-bit field at that id's
(word-index, bit-offset). -/
theorem otp_bootcfg_bool_get_amended (fusewords : List Nat)
    (sizeinwords id : Nat) :
    (sizeinwords < 2 ∨ 7 ≤ id →
      otp_bootcfg_bool_get fusewords sizeinwords id = .error .EINVAL) ∧
    (2 ≤ sizeinwords → id < 7 →
      otp_bootcfg_bool_get fusewords sizeinwords id =
        .ok (decide ((fusewords.getD (bootcfg_fuseword_index id) 0 >>>
          bootcfg_offset id) % 2 = 1))) := by
  constructor
  · intro h
    simp only [otp_bootcfg_bool_get, OTP_BOOT_CFG_COUNT]
    rw [if_pos h]
  · intro h1 h2
    simp only [otp_bootcfg_bool_get, OTP_BOOT_CFG_COUNT]
    rw [if_neg (by omega)]
    congr 1
    exact decide_eq_decide.mpr (and_one_shift_ne_zero_iff _ _)

/-- C5 (amended) witness: reading the timeout field's low bit from
[0, 0x10000, 0, 0, 0]. -/
theorem otp_bootcfg_bool_get_amended_witness :
    (2 : Nat) ≤ 5 ∧ (6 : Nat) < 7 ∧
    otp_bootcfg_bool_get [0, 65536, 0, 0, 0] 5 6 = .ok true := by
  refine ⟨by decide, by decide, ?_⟩
  have h := (otp_bootcfg_bool_get_amended [0, 65536, 0, 0, 0] 5 6).2
    (by decide) (by decide)
  simpa using h

/-- Bitwise or of a shifted value and a value fitting below the shift is
addition. -/
theorem or_add_disjoint (i a b : Nat) (h : b < 2 ^ i) :
    2 ^ i * a ||| b = 2 ^ i * a + b :=
  (Nat.mul_add_lt_is_or h a).symm

/-- The MAC_ADDR1 packing `(b0 << 8) | b1` in arithmetic form. -/
theorem mac_pack1_eq (b0 b1 : Nat) (h1 : b1 < 256) :
    (b0 <<< 8) ||| b1 = 256 * b0 + b1 := by
  have hpow8 : (2 : Nat) ^ 8 = 256 := by norm_num
  rw [Nat.shiftLeft_eq, Nat.mul_comm b0 (2 ^ 8),
    or_add_disjoint 8 b0 b1 (hpow8.symm ▸ h1), hpow8]

/-- The MAC_ADDR0 packing `(b2 << 24) | (b3 << 16) | (b4 << 8) | b5` in
arithmetic form. -/
theorem mac_pack0_eq (b2 b3 b4 b5 : Nat) (h3 : b3 < 256) (h4 : b4 < 256)
    (h5 : b5 < 256) :
    (b2 <<< 24) ||| (b3 <<< 16) ||| (b4 <<< 8) ||| b5 =
      16777216 * b2 + 65536 * b3 + 256 * b4 + b5 := by
  have hpow8 : (2 : Nat) ^ 8 = 256 := by norm_num
  have hpow16 : (2 : Nat) ^ 16 = 65536 := by norm_num
  have hpow24 : (2 : Nat) ^ 24 = 16777216 := by norm_num
  have hlt16 : 2 ^ 8 * b4 + b5 < 2 ^ 16 := by
    rw [hpow8, hpow16]; omega
  have hlt24 : 2 ^ 16 * b3 + (2 ^ 8 * b4 + b5) < 2 ^ 24 := by
    rw [hpow8, hpow16, hpow24]; omega
  rw [Nat.shiftLeft_eq, Nat.shiftLeft_eq, Nat.shiftLeft_eq,
    Nat.or_assoc, Nat.or_assoc,
    Nat.mul_comm b4 (2 ^ 8), or_add_disjoint 8 b4 b5 (hpow8.symm ▸ h5),
    Nat.mul_comm b3 (2 ^ 16), or_add_disjoint 16 b3 _ hlt16,
    Nat.mul_comm b2 (2 ^ 24), or_add_disjoint 24 b2 _ hlt24,
    hpow8, hpow16, hpow24]
  ring

/-- Masking with 255 is reduction mod 256. -/
theorem and_255_eq_mod (x : Nat) : x &&& 255 = x % 256 := by
  have h := Nat.and_pow_two_sub_one_eq_mod x 8
  norm_num at h
  exact h

/-- `otp_macaddr_read` always succeeds and unpacks the two current MAC
words. -/
theorem otp_macaddr_read_eq (dev : Device) :
    otp_macaddr_read dev =
      .ok [u32 (dev.mem OCOTP_MAC_ADDR1) >>> 8 &&& 255,
           u32 (dev.mem OCOTP_MAC_ADDR1) &&& 255,
           u32 (dev.mem OCOTP_MAC_ADDR0) >>> 24 &&& 255,
           u32 (dev.mem OCOTP_MAC_ADDR0) >>> 16 &&& 255,
           u32 (dev.mem OCOTP_MAC_ADDR0) >>> 8 &&& 255,
           u32 (dev.mem OCOTP_MAC_ADDR0) &&& 255] := by
  simp only [otp_macaddr_read, otp___fuseword_read, OTP_FUSEWORD_COUNT,
    OCOTP_MAC_ADDR0, OCOTP_MAC_ADDR1]
  rw [if_neg (by norm_num), if_neg (by norm_num)]

/-- Byte-wise unpacking of the arithmetic forms of the two packed MAC
words recovers the original bytes. -/
theorem mac_unpack_bytes (b0 b1 b2 b3 b4 b5 : Nat)
    (h0 : b0 < 256) (h1 : b1 < 256) (h2 : b2 < 256) (h3 : b3 < 256)
    (h4 : b4 < 256) (h5 : b5 < 256) :
    (256 * b0 + b1) >>> 8 &&& 255 = b0 ∧
    (256 * b0 + b1) &&& 255 = b1 ∧
    (16777216 * b2 + 65536 * b3 + 256 * b4 + b5) >>> 24 &&& 255 = b2 ∧
    (16777216 * b2 + 65536 * b3 + 256 * b4 + b5) >>> 16 &&& 255 = b3 ∧
    (16777216 * b2 + 65536 * b3 + 256 * b4 + b5) >>> 8 &&& 255 = b4 ∧
    (16777216 * b2 + 65536 * b3 + 256 * b4 + b5) &&& 255 = b5 := by
  refine ⟨?_, ?_, ?_, ?_, ?_, ?_⟩ <;>
    simp only [and_255_eq_mod, Nat.shiftRight_eq_div_pow] <;>
    (try norm_num) <;> omega

/-- Reading the MAC words back after a fresh write recovers the 6 bytes:
the 2-word packing and the byte-wise unpacking are mutually inverse. -/
theorem macaddr_read_after_write (dev : Device) (b0 b1 b2 b3 b4 b5 : Nat)
    (h0 : b0 < 256) (h1 : b1 < 256) (h2 : b2 < 256) (h3 : b3 < 256)
    (h4 : b4 < 256) (h5 : b5 < 256) :
    otp_macaddr_read (devWrite (devWrite dev OCOTP_MAC_ADDR0
        ((b2 <<< 24) ||| (b3 <<< 16) ||| (b4 <<< 8) ||| b5)) OCOTP_MAC_ADDR1
        ((b0 <<< 8) ||| b1)) = .ok [b0, b1, b2, b3, b4, b5] := by
  have hm0 : (b2 <<< 24) ||| (b3 <<< 16) ||| (b4 <<< 8) ||| b5 =
      16777216 * b2 + 65536 * b3 + 256 * b4 + b5 :=
    mac_pack0_eq b2 b3 b4 b5 h3 h4 h5
  have hm1 : (b0 <<< 8) ||| b1 = 256 * b0 + b1 := mac_pack1_eq b0 b1 h1
  have hu0 : u32 (16777216 * b2 + 65536 * b3 + 256 * b4 + b5) =
      16777216 * b2 + 65536 * b3 + 256 * b4 + b5 :=
    Nat.mod_eq_of_lt (by omega)
  have hu1 : u32 (256 * b0 + b1) = 256 * b0 + b1 :=
    Nat.mod_eq_of_lt (by omega)
  have hm23 : (devWrite (devWrite dev OCOTP_MAC_ADDR0
      ((b2 <<< 24) ||| (b3 <<< 16) ||| (b4 <<< 8) ||| b5)) OCOTP_MAC_ADDR1
      ((b0 <<< 8) ||| b1)).mem OCOTP_MAC_ADDR0 =
      u32 ((b2 <<< 24) ||| (b3 <<< 16) ||| (b4 <<< 8) ||| b5) := by
    simp [devWrite, OCOTP_MAC_ADDR0, OCOTP_MAC_ADDR1]
  have hm24 : (devWrite (devWrite dev OCOTP_MAC_ADDR0
      ((b2 <<< 24) ||| (b3 <<< 16) ||| (b4 <<< 8) ||| b5)) OCOTP_MAC_ADDR1
      ((b0 <<< 8) ||| b1)).mem OCOTP_MAC_ADDR1 =
      u32 ((b0 <<< 8) ||| b1) := by
    simp [devWrite, OCOTP_MAC_ADDR0, OCOTP_MAC_ADDR1]
  have hunp := mac_unpack_bytes b0 b1 b2 b3 b4 b5 h0 h1 h2 h3 h4 h5
  rw [otp_macaddr_read_eq, hm23, hm24, hm0, hm1, hu0, hu1, hu0, hu1,
    hunp.1, hunp.2.1, hunp.2.2.1, hunp.2.2.2.1, hunp.2.2.2.2.1,
    hunp.2.2.2.2.2]

/-- A MAC write onto an all-zero current address with a non-zero desired
address packs the bytes and writes MAC_ADDR0 then MAC_ADDR1. -/
theorem macaddr_write_fresh (dev : Device) (b0 b1 b2 b3 b4 b5 : Nat)
    (hcur : otp_macaddr_read dev = .ok [0, 0, 0, 0, 0, 0])
    (hdnz : [b0, b1, b2, b3, b4, b5] ≠ ([0, 0, 0, 0, 0, 0] : List Nat)) :
    otp_macaddr_write dev [b0, b1, b2, b3, b4, b5] =
      (.ok (), devWrite (devWrite dev OCOTP_MAC_ADDR0
        ((b2 <<< 24) ||| (b3 <<< 16) ||| (b4 <<< 8) ||| b5)) OCOTP_MAC_ADDR1
        ((b0 <<< 8) ||| b1)) := by
  simp only [otp_macaddr_write, hcur]
  rw [if_neg (by simp), if_neg (fun hc => hdnz hc.symm)]
  rfl

/-- C4 counterexample: with the MAC fuses already holding 00:00:00:00:00:01
and the same address desired, `otp_macaddr_write` fails with EALREADY and
writes nothing — the claim says a write whose desired address equals the
current one returns success. -/
theorem otp_macaddr_write_cex :
    otp_macaddr_read ⟨fun j => if j = 23 then 1 else 0, []⟩ =
      .ok [0, 0, 0, 0, 0, 1] ∧
    (otp_macaddr_write ⟨fun j => if j = 23 then 1 else 0, []⟩
      [0, 0, 0, 0, 0, 1]).1 = .error Cerr.EALREADY ∧
    (otp_macaddr_write ⟨fun j => if j = 23 then 1 else 0, []⟩
      [0, 0, 0, 0, 0, 1]).2.log = [] :=
  ⟨rfl, rfl, rfl⟩

/-- C4 (amended): `otp_macaddr_write` reads the current address; if the
current address is non-zero it fails with EALREADY and performs no write —
even when it already equals the desired address; if the current address is
all-zero and the desired address is also all-zero it returns success
without writing; if the current address is all-zero and the desired address
differs, it packs and writes the 2 words and succeeds. -/
theorem otp_macaddr_write_amended (dev : Device) (b0 b1 b2 b3 b4 b5 : Nat)
    (cur : List Nat) (h0 : b0 < 256) (h1 : b1 < 256) (h2 : b2 < 256)
    (h3 : b3 < 256) (h4 : b4 < 256) (h5 : b5 < 256)
    (hcur : otp_macaddr_read dev = .ok cur) :
    (cur ≠ [0, 0, 0, 0, 0, 0] →
      otp_macaddr_write dev [b0, b1, b2, b3, b4, b5] =
        (.error .EALREADY, dev)) ∧
    (cur = [0, 0, 0, 0, 0, 0] → [b0, b1, b2, b3, b4, b5] = ([0, 0, 0, 0, 0, 0] : List Nat) →
      otp_macaddr_write dev [b0, b1, b2, b3, b4, b5] = (.ok (), dev)) ∧
    (cur = [0, 0, 0, 0, 0, 0] → [b0, b1, b2, b3, b4, b5] ≠ ([0, 0, 0, 0, 0, 0] : List Nat) →
      (otp_macaddr_write dev [b0, b1, b2, b3, b4, b5]).1 = .ok () ∧
      (otp_macaddr_write dev [b0, b1, b2, b3, b4, b5]).2.log = dev.log ++
        [(OCOTP_MAC_ADDR0, 16777216 * b2 + 65536 * b3 + 256 * b4 + b5),
         (OCOTP_MAC_ADDR1, 256 * b0 + b1)]) := by
  refine ⟨?_, ?_, ?_⟩
  · intro hne
    simp only [otp_macaddr_write, hcur]
    rw [if_pos hne]
  · intro hz heq
    simp only [otp_macaddr_write, hcur]
    rw [if_neg (by simp [hz]), if_pos (by rw [hz, heq])]
  · intro hz hne
    rw [hz] at hcur
    have hfresh := macaddr_write_fresh dev b0 b1 b2 b3 b4 b5 hcur hne
    rw [hfresh]
    refine ⟨rfl, ?_⟩
    have hu0 : u32 (16777216 * b2 + 65536 * b3 + 256 * b4 + b5) =
        16777216 * b2 + 65536 * b3 + 256 * b4 + b5 :=
      Nat.mod_eq_of_lt (by omega)
    have hu1 : u32 (256 * b0 + b1) = 256 * b0 + b1 :=
      Nat.mod_eq_of_lt (by omega)
    simp only [devWrite, OCOTP_MAC_ADDR0, OCOTP_MAC_ADDR1]
    rw [mac_pack0_eq b2 b3 b4 b5 h3 h4 h5, mac_pack1_eq b0 b1 h1, hu0, hu1]
    simp

/-- C4 (amended) witness: writing 00:00:00:00:00:01 onto all-zero fuses
succeeds. -/
theorem otp_macaddr_write_amended_witness :
    (1 : Nat) < 256 ∧
    otp_macaddr_read ⟨fun _ => 0, []⟩ = .ok [0, 0, 0, 0, 0, 0] ∧
    (otp_macaddr_write ⟨fun _ => 0, []⟩ [0, 0, 0, 0, 0, 1]).1 = .ok () :=
  ⟨by decide, rfl,
    ((otp_macaddr_write_amended ⟨fun _ => 0, []⟩ 0 0 0 0 0 1 [0, 0, 0, 0, 0, 0]
      (by decide) (by decide) (by decide) (by decide) (by decide) (by decide)
      rfl).2.2 rfl (by decide)).1⟩

/-- C9 counterexample: for the desired address d = 00:00:00:00:00:00 with
all-zero current fuses, the first write succeeds and read returns d, but a
second write of the different non-zero address 00:00:00:00:00:01 also
succeeds — the claim says it must fail with AlreadyProgrammed. -/
theorem otp_macaddr_roundtrip_cex :
    (otp_macaddr_write ⟨fun _ => 0, []⟩ [0, 0, 0, 0, 0, 0]).1 = .ok () ∧
    otp_macaddr_read (otp_macaddr_write ⟨fun _ => 0, []⟩
      [0, 0, 0, 0, 0, 0]).2 = .ok [0, 0, 0, 0, 0, 0] ∧
    (otp_macaddr_write (otp_macaddr_write ⟨fun _ => 0, []⟩
      [0, 0, 0, 0, 0, 0]).2 [0, 0, 0, 0, 0, 1]).1 = .ok () :=
  ⟨rfl, rfl, rfl⟩

/-- C9 (amended): for every NON-ZERO 6-byte address, when the current MAC
fuse words are all zero, `otp_macaddr_write` succeeds, a subsequent
`otp_macaddr_read` returns exactly the written address (packing and
unpacking are mutually inverse), and a second write of a different non-zero
address fails with EALREADY leaving the device unchanged. -/
theorem otp_macaddr_roundtrip_amended (dev : Device)
    (b0 b1 b2 b3 b4 b5 e0 e1 e2 e3 e4 e5 : Nat)
    (h0 : b0 < 256) (h1 : b1 < 256) (h2 : b2 < 256) (h3 : b3 < 256)
    (h4 : b4 < 256) (h5 : b5 < 256)
    (hcur : otp_macaddr_read dev = .ok [0, 0, 0, 0, 0, 0])
    (hdnz : [b0, b1, b2, b3, b4, b5] ≠ ([0, 0, 0, 0, 0, 0] : List Nat))
    (henz : [e0, e1, e2, e3, e4, e5] ≠ ([0, 0, 0, 0, 0, 0] : List Nat))
    (hne : [e0, e1, e2, e3, e4, e5] ≠ [b0, b1, b2, b3, b4, b5]) :
    (otp_macaddr_write dev [b0, b1, b2, b3, b4, b5]).1 = .ok () ∧
    otp_macaddr_read (otp_macaddr_write dev [b0, b1, b2, b3, b4, b5]).2 =
      .ok [b0, b1, b2, b3, b4, b5] ∧
    otp_macaddr_write (otp_macaddr_write dev [b0, b1, b2, b3, b4, b5]).2
      [e0, e1, e2, e3, e4, e5] =
      (.error .EALREADY,
        (otp_macaddr_write dev [b0, b1, b2, b3, b4, b5]).2) := by
  have hfresh := macaddr_write_fresh dev b0 b1 b2 b3 b4 b5 hcur hdnz
  have hread2 := macaddr_read_after_write dev b0 b1 b2 b3 b4 b5
    h0 h1 h2 h3 h4 h5
  refine ⟨by rw [hfresh], by rw [hfresh]; exact hread2, ?_⟩
  rw [hfresh]
  simp only [otp_macaddr_write, hread2]
  rw [if_pos hdnz]

/-- C9 (amended) witness: first address 00:00:00:00:00:01, second address
00:00:00:00:00:02. -/
theorem otp_macaddr_roundtrip_amended_witness :
    ([0, 0, 0, 0, 0, 1] : List Nat) ≠ [0, 0, 0, 0, 0, 0] ∧
    ([0, 0, 0, 0, 0, 2] : List Nat) ≠ [0, 0, 0, 0, 0, 1] ∧
    otp_macaddr_read (otp_macaddr_write ⟨fun _ => 0, []⟩
      [0, 0, 0, 0, 0, 1]).2 = .ok [0, 0, 0, 0, 0, 1] :=
  ⟨by decide, by decide,
    (otp_macaddr_roundtrip_amended ⟨fun _ => 0, []⟩ 0 0 0 0 0 1 0 0 0 0 0 2
      (by decide) (by decide) (by decide) (by decide) (by decide) (by decide)
      rfl (by decide) (by decide) (by decide)).2.1⟩
